import Mathlib

/-!
Verification development for the trade-risk repository's tracking and alert
core. The definitions below are a shallow embedding of
`lib/trackingService.ts` (the `TrackingService` class and
`getRobinhoodMarginRate`) and of the evaluation core of `lib/alertEngine.ts`
(the `AlertEngine` class). JavaScript numbers are modelled as rationals
(`ℚ`); the one place where the source can produce a non-finite number (the
unguarded division in the sudden-loss risk check) is modelled explicitly
with a `JsNum` type carrying infinities and NaN. Timestamps are modelled as
integer milliseconds; ISO date strings (`toISOString().split('T')[0]`) are
modelled as the integer day index `t / 86400000` (floor). Display-only
string fields (messages, titles, synthesized timestamp suffixes of ids) are
omitted: they are never read back by any computation in the source.
-/

namespace TradeRisk

/-- Lifecycle status of a tracked position (`TrackingEntry.status`). -/
inductive Status where
  | active
  | completed
  | stopped
  | expired
deriving DecidableEq, Repr

/-- Severity grades used by both alert subsystems. -/
inductive Severity where
  | low
  | medium
  | high
  | critical
deriving DecidableEq, Repr

/-- The four position-scoped risk alert kinds (`RiskAlert.type`). -/
inductive RiskAlertType where
  | sudden_loss
  | high_volatility
  | margin_risk
  | profit_decline
deriving DecidableEq, Repr

/-- A JavaScript number restricted to the values reachable in the
sudden-loss computation: a finite rational, the two infinities, or NaN. -/
inductive JsNum where
  | fin (q : ℚ)
  | posInf
  | negInf
  | nan
deriving DecidableEq, Repr

/-- JavaScript division of two finite numbers: `a / 0` is `NaN` when
`a = 0`, `+Infinity` when `a > 0`, `-Infinity` when `a < 0`. -/
def jsDivFin (a b : ℚ) : JsNum :=
  if b = 0 then
    if a = 0 then JsNum.nan else if 0 < a then JsNum.posInf else JsNum.negInf
  else JsNum.fin (a / b)

/-- Multiplication by the positive literal 100, as applied to the quotient
in the sudden-loss rule; it preserves infinities and NaN. -/
def jsMul100 : JsNum → JsNum
  | JsNum.fin q => JsNum.fin (q * 100)
  | JsNum.posInf => JsNum.posInf
  | JsNum.negInf => JsNum.negInf
  | JsNum.nan => JsNum.nan

/-- JavaScript `x < c` for a finite right operand: NaN comparisons are
false, `-Infinity < c` is true, `+Infinity < c` is false. -/
def jsLtC (x : JsNum) (c : ℚ) : Bool :=
  match x with
  | JsNum.fin q => decide (q < c)
  | JsNum.posInf => false
  | JsNum.negInf => true
  | JsNum.nan => false

/-- Finiteness of a `JsNum` (JavaScript `Number.isFinite`). -/
def JsNum.isFinite : JsNum → Bool
  | JsNum.fin _ => true
  | _ => false

/-- One record of `TrackingEntry.dailyUpdates`. The ISO date string is
modelled as an integer day index. -/
structure DailyUpdate where
  date : Int
  price : ℚ
  profit : ℚ
  loss : ℚ
  totalInterest : ℚ
  roi : ℚ
  marginCallRisk : Bool
deriving DecidableEq, Repr

/-- A position-scoped risk alert. The synthesized id
(`entryId-kind-timestamp`) is modelled without its `Date.now()` suffix;
the display message and timestamp are omitted. -/
structure RiskAlert where
  id : String
  rtype : RiskAlertType
  severity : Severity
  acknowledged : Bool
deriving DecidableEq, Repr

/-- A tracked position (`TrackingEntry` in `types/stock.ts`). Optional
numeric fields that the tracking code reads through JavaScript truthiness
are modelled as `Option ℚ` (for `currentPrice`) or as plain rationals
defaulting to 0 (for `currentROI`, whose `undefined` and `0` cases are
indistinguishable to the truthiness guards that read it). -/
structure TrackingEntry where
  id : String
  symbol : String
  stockName : String
  entryDate : Int
  entryPrice : ℚ
  exitPrice : ℚ
  stopLoss : ℚ
  shares : ℚ
  investmentAmount : ℚ
  marginUsed : ℚ
  ownCash : ℚ
  marginRatio : ℚ
  tradeDuration : Int
  isGoldSubscriber : Bool
  status : Status
  dailyUpdates : List DailyUpdate
  currentPrice : Option ℚ
  currentProfit : ℚ
  currentROI : ℚ
  daysElapsed : Int
  totalInterestPaid : ℚ
  expirationDate : Option Int
  riskAlerts : List RiskAlert
  lastRiskCheck : Int
deriving DecidableEq, Repr

/-- Milliseconds per day, the divisor used for `daysElapsed` and the
day-granularity date keys. -/
def msPerDay : Int := 86400000

/-- The calendar-day index of a millisecond timestamp, modelling
`date.toISOString().split('T')[0]`. -/
def dateOf (t : Int) : Int := t.fdiv msPerDay

/-- `getRobinhoodMarginRate` (trackingService lines 9-16): the six-tier
annual margin rate schedule over the borrowed amount. -/
def getRobinhoodMarginRate (marginAmount : ℚ) : ℚ :=
  if marginAmount ≤ 50000 then 5.75
  else if marginAmount ≤ 100000 then 5.55
  else if marginAmount ≤ 1000000 then 5.25
  else if marginAmount ≤ 10000000 then 5.0
  else if marginAmount ≤ 50000000 then 4.95
  else 4.7

/-- The margin-call price formula `shares > 0 ? (marginUsed * 4/3) / shares : 0`,
which appears verbatim at trackingService lines 142 and 248. -/
def marginCallPriceOf (shares marginUsed : ℚ) : ℚ :=
  if 0 < shares then marginUsed * 4 / 3 / shares else 0

/-- The relative day-over-day ROI change of the sudden-loss rule
(trackingService line 111):
`((today.roi - yesterday.roi) / Math.abs(yesterday.roi)) * 100`.
The division carries JavaScript semantics: it is non-finite when
`yesterday.roi = 0`. -/
def suddenLossChange (yesterday today : DailyUpdate) : JsNum :=
  jsMul100 (jsDivFin (today.roi - yesterday.roi) |yesterday.roi|)

/-- `TrackingService.checkForRiskAlerts` (lines 103-174): the four
heuristic risk rules, evaluated independently and concatenated in source
order. -/
def checkForRiskAlerts (entry : TrackingEntry) : List RiskAlert :=
  let suddenLoss : Option RiskAlert :=
    if 2 ≤ entry.dailyUpdates.length then
      match entry.dailyUpdates.drop (entry.dailyUpdates.length - 2) with
      | [yesterday, today] =>
        let dailyChange := suddenLossChange yesterday today
        if jsLtC dailyChange (-10) then
          some { id := entry.id ++ "-sudden-loss"
                 rtype := RiskAlertType.sudden_loss
                 severity :=
                   if jsLtC dailyChange (-25) then Severity.high
                   else if jsLtC dailyChange (-15) then Severity.medium
                   else Severity.low
                 acknowledged := false }
        else none
      | _ => none
    else none
  let volatility : Option RiskAlert :=
    match entry.currentPrice with
    | some c =>
      if c ≠ 0 ∧ entry.entryPrice ≠ 0 then
        let priceChange := |(c - entry.entryPrice) / entry.entryPrice * 100|
        if 15 < priceChange ∧ entry.currentROI ≠ 0 ∧ entry.currentROI < 0 then
          some { id := entry.id ++ "-volatility"
                 rtype := RiskAlertType.high_volatility
                 severity := if 25 < priceChange then Severity.high else Severity.medium
                 acknowledged := false }
        else none
      else none
    | none => none
  let marginRisk : Option RiskAlert :=
    let marginCallPrice := marginCallPriceOf entry.shares entry.marginUsed
    match entry.currentPrice with
    | some c =>
      if c ≠ 0 ∧ c ≤ marginCallPrice then
        some { id := entry.id ++ "-margin-risk"
               rtype := RiskAlertType.margin_risk
               severity := Severity.high
               acknowledged := false }
      else none
    | none => none
  let profitDecline : Option RiskAlert :=
    if 3 ≤ entry.dailyUpdates.length then
      let lastThree := entry.dailyUpdates.drop (entry.dailyUpdates.length - 3)
      let isDecreasing : Bool := decide (List.Chain' (fun a b => b.roi < a.roi) lastThree)
      if isDecreasing ∧ entry.currentROI ≠ 0 ∧ entry.currentROI < -5 then
        some { id := entry.id ++ "-profit-decline"
               rtype := RiskAlertType.profit_decline
               severity := if entry.currentROI < -15 then Severity.high else Severity.medium
               acknowledged := false }
      else none
    else none
  suddenLoss.toList ++ volatility.toList ++ marginRisk.toList ++ profitDecline.toList

/-- The `dailyUpdates` maintenance of `calculateDailyUpdate`
(lines 271-280): push the fresh record if the list is empty or its last
record carries a different date, otherwise overwrite the last record. -/
def appendOrOverwrite (updates : List DailyUpdate) (du : DailyUpdate) : List DailyUpdate :=
  match updates.getLast? with
  | none => updates ++ [du]
  | some lastUpdate =>
    if lastUpdate.date ≠ du.date then updates ++ [du]
    else updates.dropLast ++ [du]

/-- `TrackingService.calculateDailyUpdate` (lines 219-310), with the
partial-record return merged into the entry the way `updateTrackingEntry`
merges it. `now` is the current time in milliseconds and `price` the
quote's `regularMarketPrice`. -/
def calculateDailyUpdate (now : Int) (entry : TrackingEntry) (price : ℚ) : TrackingEntry :=
  let currentPrice := price
  let daysElapsed : Int := (now - entry.entryDate).fdiv msPerDay
  let status1 : Status :=
    match entry.expirationDate with
    | some expiration =>
      if expiration ≤ now ∧ entry.status = Status.active then Status.expired else entry.status
    | none => entry.status
  let marginRate := getRobinhoodMarginRate entry.marginUsed
  let chargeableMargin :=
    if entry.isGoldSubscriber then max 0 (entry.marginUsed - 1000) else entry.marginUsed
  let dailyInterestRate := marginRate / 365 / 100
  let totalInterestPaid := chargeableMargin * dailyInterestRate * (daysElapsed : ℚ)
  let grossProfit := (currentPrice - entry.entryPrice) * entry.shares
  let currentProfit := grossProfit - totalInterestPaid
  let currentROI := if 0 < entry.ownCash then currentProfit / entry.ownCash * 100 else 0
  let marginCallPrice := marginCallPriceOf entry.shares entry.marginUsed
  let marginCallRisk := decide (0 < entry.shares) && decide (currentPrice ≤ marginCallPrice)
  let status2 : Status :=
    if status1 ≠ Status.expired then
      if entry.exitPrice ≤ currentPrice then Status.completed
      else if currentPrice ≤ entry.stopLoss then Status.stopped
      else status1
    else status1
  let dailyUpdate : DailyUpdate :=
    { date := dateOf now
      price := currentPrice
      profit := grossProfit
      loss := if grossProfit < 0 then |grossProfit| else 0
      totalInterest := totalInterestPaid
      roi := currentROI
      marginCallRisk := marginCallRisk }
  let existingUpdates := appendOrOverwrite entry.dailyUpdates dailyUpdate
  let updatedEntry : TrackingEntry :=
    { entry with
      currentPrice := some currentPrice
      currentProfit := currentProfit
      currentROI := currentROI
      daysElapsed := daysElapsed
      totalInterestPaid := totalInterestPaid
      status := status2
      dailyUpdates := existingUpdates }
  let newAlerts := checkForRiskAlerts updatedEntry
  { updatedEntry with
    riskAlerts := entry.riskAlerts ++ newAlerts
    lastRiskCheck := now }

/-- The parameter object of `TrackingService.addTrackingEntry`
(lines 41-54). -/
structure AddParams where
  symbol : String
  stockName : String
  entryPrice : ℚ
  exitPrice : ℚ
  stopLoss : ℚ
  shares : ℚ
  investmentAmount : ℚ
  marginUsed : ℚ
  ownCash : ℚ
  marginRatio : ℚ
  tradeDuration : Int
  isGoldSubscriber : Bool
deriving DecidableEq, Repr

/-- The entry constructed by `TrackingService.addTrackingEntry`
(lines 55-73); `now` is `Date.now()` and `id` the generated id string. -/
def mkTrackingEntry (now : Int) (id : String) (p : AddParams) : TrackingEntry :=
  { id := id
    symbol := p.symbol
    stockName := p.stockName
    entryDate := now
    entryPrice := p.entryPrice
    exitPrice := p.exitPrice
    stopLoss := p.stopLoss
    shares := p.shares
    investmentAmount := p.investmentAmount
    marginUsed := p.marginUsed
    ownCash := p.ownCash
    marginRatio := p.marginRatio
    tradeDuration := p.tradeDuration
    isGoldSubscriber := p.isGoldSubscriber
    status := Status.active
    dailyUpdates := []
    currentPrice := some p.entryPrice
    currentProfit := 0
    currentROI := 0
    daysElapsed := 0
    totalInterestPaid := 0
    expirationDate := some (now + p.tradeDuration * msPerDay)
    riskAlerts := []
    lastRiskCheck := now }

/-- `TrackingService.renewTrackingEntry` (lines 82-101): find the first
entry with the given id; if present, extend its expiration date by
`additionalDays`, add `additionalDays` to its stored duration, and force
the status back to `active`. Absent id: no-op. -/
def renewTrackingEntry (id : String) (additionalDays : Int) :
    List TrackingEntry → List TrackingEntry
  | [] => []
  | entry :: rest =>
    if entry.id = id then
      { entry with
        expirationDate :=
          some ((entry.expirationDate.getD entry.entryDate) + additionalDays * msPerDay)
        tradeDuration := entry.tradeDuration + additionalDays
        status := Status.active } :: rest
    else entry :: renewTrackingEntry id additionalDays rest

/-- `TrackingService.acknowledgeRiskAlert` (lines 176-186): flip the
acknowledged flag of the matching risk alert on the first entry with the
given id. -/
def acknowledgeRiskAlert (entryId alertId : String) :
    List TrackingEntry → List TrackingEntry
  | [] => []
  | entry :: rest =>
    if entry.id = entryId then
      { entry with
        riskAlerts := entry.riskAlerts.map fun a =>
          if a.id = alertId then { a with acknowledged := true } else a } :: rest
    else entry :: acknowledgeRiskAlert entryId alertId rest

/-- `TrackingService.removeTrackingEntry` (lines 198-202). -/
def removeTrackingEntry (id : String) (entries : List TrackingEntry) : List TrackingEntry :=
  entries.filter fun entry => entry.id ≠ id

/-- The per-entry step of `TrackingService.updateDailyPrices`
(lines 204-217): only entries with status `active` are refreshed, and a
failed quote lookup (`quotes symbol = none`, the thrown-error path) leaves
the entry unchanged. -/
def updateDailyPricesStep (now : Int) (quotes : String → Option ℚ)
    (entry : TrackingEntry) : TrackingEntry :=
  if entry.status = Status.active then
    match quotes entry.symbol with
    | some q => calculateDailyUpdate now entry q
    | none => entry
  else entry

/-- `TrackingService.updateDailyPrices` over the whole store. -/
def updateDailyPrices (now : Int) (quotes : String → Option ℚ)
    (entries : List TrackingEntry) : List TrackingEntry :=
  entries.map (updateDailyPricesStep now quotes)

/-- The operations of the Position Store and the Daily Update Calculator,
as invoked through the `TrackingService` static API. `updateTrackingEntry`
with an arbitrary partial record is the internal persistence step of
`updateDailyPrices` (modelled inside `daily`); as a raw API it trusts its
caller (spec 4.1) and is not a lifecycle operation. -/
inductive StoreOp where
  | daily (now : Int) (quotes : String → Option ℚ)
  | renewOp (id : String) (additionalDays : Int)
  | addOp (now : Int) (id : String) (p : AddParams)
  | removeOp (id : String)
  | ackOp (entryId alertId : String)

/-- Apply one store operation. -/
def applyOp (store : List TrackingEntry) : StoreOp → List TrackingEntry
  | StoreOp.daily now quotes => updateDailyPrices now quotes store
  | StoreOp.renewOp id d => renewTrackingEntry id d store
  | StoreOp.addOp now id p => store ++ [mkTrackingEntry now id p]
  | StoreOp.removeOp id => removeTrackingEntry id store
  | StoreOp.ackOp entryId alertId => acknowledgeRiskAlert entryId alertId store

/-- Run a sequence of store operations. -/
def runOps (ops : List StoreOp) (store : List TrackingEntry) : List TrackingEntry :=
  ops.foldl applyOp store

/-- Whether an operation explicitly targets the id with a renewal, or adds
a fresh entry under that id. -/
def opRevivesId (id : String) : StoreOp → Bool
  | StoreOp.renewOp idR _ => idR = id
  | StoreOp.addOp _ idA _ => idA = id
  | _ => false

/-! ### Alert Rule Engine (`lib/alertEngine.ts`)

The engine's evaluation core is modelled over the alert kinds the frozen
claims are about: the threshold-versus-price evaluators and the
margin-call-risk evaluator. The remaining kinds in the source are either
placeholder/random technical indicators or portfolio aggregates and are
outside the modelled core (spec sections 4.4 and 9). Display-only fields
(name, description, title, message, notification flags, timestamps and the
randomized id suffix) are omitted: no evaluation logic reads them. -/

/-- The status of a triggered alert (`AlertStatus`). -/
inductive AlertStatus where
  | active
  | triggered
  | acknowledged
  | dismissed
  | expired
deriving DecidableEq, Repr

/-- The modelled alert kinds (`AlertType`). -/
inductive AlertType where
  | percentage_gain
  | dollar_profit
  | price_target
  | resistance_breach
  | percentage_loss
  | dollar_loss
  | support_break
  | margin_call_risk
deriving DecidableEq, Repr

/-- One condition of an alert configuration (`AlertCondition`). The
evaluation core reads only `field` and `value` (via `getConditionValue`);
the comparison operator and timeframe are stored but never consulted. -/
structure AlertCondition where
  field : String
  operator : String
  value : ℚ
deriving DecidableEq, Repr

/-- A user-defined alert configuration (`AlertConfiguration`). -/
structure AlertConfiguration where
  id : String
  atype : AlertType
  symbol : Option String
  conditions : List AlertCondition
  severity : Severity
  enabled : Bool
deriving DecidableEq, Repr

/-- A triggered alert record (`TriggeredAlert`). -/
structure TriggeredAlert where
  alertId : String
  atype : AlertType
  symbol : Option String
  severity : Severity
  status : AlertStatus
  currentValue : Option ℚ
  targetValue : Option ℚ
deriving DecidableEq, Repr

/-- `AlertEngine.getConditionValue` (lines 990-993): the value of the
first condition with the given field name, defaulting to 0. -/
def getConditionValue (conditions : List AlertCondition) (field : String) : ℚ :=
  match conditions.find? fun c => c.field = field with
  | some c => c.value
  | none => 0

/-- `AlertEngine.createTriggeredAlert` (lines 995-1021): severity defaults
to the configuration's severity unless the evaluator overrides it; status
is always `triggered`. -/
def createTriggeredAlert (alert : AlertConfiguration) (symbol : Option String)
    (currentValue targetValue : Option ℚ) (severityOverride : Option Severity) :
    TriggeredAlert :=
  { alertId := alert.id
    atype := alert.atype
    symbol := symbol
    severity := severityOverride.getD alert.severity
    status := AlertStatus.triggered
    currentValue := currentValue
    targetValue := targetValue }

/-- `AlertEngine.evaluatePercentageGain` (lines 216-246): first position
that is active, has a truthy current price, and whose percentage gain over
entry meets the threshold. -/
def evaluatePercentageGain (alert : AlertConfiguration) :
    List TrackingEntry → Option TriggeredAlert
  | [] => none
  | position :: rest =>
    match position.currentPrice with
    | none => evaluatePercentageGain alert rest
    | some c =>
      if c = 0 ∨ position.status ≠ Status.active then evaluatePercentageGain alert rest
      else
        let threshold := getConditionValue alert.conditions "percentage_gain"
        let gainPercent := (c - position.entryPrice) / position.entryPrice * 100
        if threshold ≤ gainPercent then
          some (createTriggeredAlert alert (some position.symbol)
            (some gainPercent) (some threshold) none)
        else evaluatePercentageGain alert rest

/-- `AlertEngine.evaluateDollarProfit` (lines 248-271). -/
def evaluateDollarProfit (alert : AlertConfiguration) :
    List TrackingEntry → Option TriggeredAlert
  | [] => none
  | position :: rest =>
    match position.currentPrice with
    | none => evaluateDollarProfit alert rest
    | some c =>
      if c = 0 ∨ position.status ≠ Status.active then evaluateDollarProfit alert rest
      else
        let threshold := getConditionValue alert.conditions "dollar_profit"
        let profitAmount := (c - position.entryPrice) * position.shares
        if threshold ≤ profitAmount then
          some (createTriggeredAlert alert (some position.symbol)
            (some profitAmount) (some threshold) none)
        else evaluateDollarProfit alert rest

/-- `AlertEngine.evaluatePriceTarget` (lines 295-311). -/
def evaluatePriceTarget (alert : AlertConfiguration) :
    List TrackingEntry → Option TriggeredAlert
  | [] => none
  | position :: rest =>
    match position.currentPrice with
    | none => evaluatePriceTarget alert rest
    | some c =>
      if c = 0 ∨ position.status ≠ Status.active then evaluatePriceTarget alert rest
      else
        let targetPrice := getConditionValue alert.conditions "price_target"
        if targetPrice ≤ c then
          some (createTriggeredAlert alert (some position.symbol)
            (some c) (some targetPrice) none)
        else evaluatePriceTarget alert rest

/-- `AlertEngine.evaluateResistanceBreach` (lines 545-561). -/
def evaluateResistanceBreach (alert : AlertConfiguration) :
    List TrackingEntry → Option TriggeredAlert
  | [] => none
  | position :: rest =>
    match position.currentPrice with
    | none => evaluateResistanceBreach alert rest
    | some c =>
      if c = 0 ∨ position.status ≠ Status.active then evaluateResistanceBreach alert rest
      else
        let resistanceLevel := getConditionValue alert.conditions "resistance_level"
        if resistanceLevel ≤ c then
          some (createTriggeredAlert alert (some position.symbol)
            (some c) (some resistanceLevel) none)
        else evaluateResistanceBreach alert rest

/-- `AlertEngine.evaluatePercentageLoss` (lines 314-340): the loss
threshold is taken in absolute value and the emitted severity is always
high. -/
def evaluatePercentageLoss (alert : AlertConfiguration) :
    List TrackingEntry → Option TriggeredAlert
  | [] => none
  | position :: rest =>
    match position.currentPrice with
    | none => evaluatePercentageLoss alert rest
    | some c =>
      if c = 0 ∨ position.status ≠ Status.active then evaluatePercentageLoss alert rest
      else
        let threshold := getConditionValue alert.conditions "percentage_loss"
        let lossPercent := (position.entryPrice - c) / position.entryPrice * 100
        if |threshold| ≤ lossPercent then
          some (createTriggeredAlert alert (some position.symbol)
            (some lossPercent) (some |threshold|) (some Severity.high))
        else evaluatePercentageLoss alert rest

/-- `AlertEngine.evaluateDollarLoss` (lines 342-361): absolute-value
threshold, severity always high. -/
def evaluateDollarLoss (alert : AlertConfiguration) :
    List TrackingEntry → Option TriggeredAlert
  | [] => none
  | position :: rest =>
    match position.currentPrice with
    | none => evaluateDollarLoss alert rest
    | some c =>
      if c = 0 ∨ position.status ≠ Status.active then evaluateDollarLoss alert rest
      else
        let threshold := getConditionValue alert.conditions "dollar_loss"
        let lossAmount := (position.entryPrice - c) * position.shares
        if |threshold| ≤ lossAmount then
          some (createTriggeredAlert alert (some position.symbol)
            (some lossAmount) (some |threshold|) (some Severity.high))
        else evaluateDollarLoss alert rest

/-- `AlertEngine.evaluateSupportBreak` (lines 673-690): severity always
high. -/
def evaluateSupportBreak (alert : AlertConfiguration) :
    List TrackingEntry → Option TriggeredAlert
  | [] => none
  | position :: rest =>
    match position.currentPrice with
    | none => evaluateSupportBreak alert rest
    | some c =>
      if c = 0 ∨ position.status ≠ Status.active then evaluateSupportBreak alert rest
      else
        let supportLevel := getConditionValue alert.conditions "support_level"
        if c ≤ supportLevel then
          some (createTriggeredAlert alert (some position.symbol)
            (some c) (some supportLevel) (some Severity.high))
        else evaluateSupportBreak alert rest

/-- The margin equity percentage computed by
`AlertEngine.evaluateMarginCallRisk` (lines 397-399):
`((price*shares - marginUsed) / (price*shares)) * 100`. -/
def engineMarginPercent (price shares marginUsed : ℚ) : ℚ :=
  (price * shares - marginUsed) / (price * shares) * 100

/-- `AlertEngine.evaluateMarginCallRisk` (lines 391-412): skips positions
with a falsy current price or zero margin (but, unlike the price
evaluators, does not check the lifecycle status); the threshold defaults
to 25 when the configured value is absent or zero; severity is always
critical. -/
def evaluateMarginCallRisk (alert : AlertConfiguration) :
    List TrackingEntry → Option TriggeredAlert
  | [] => none
  | position :: rest =>
    match position.currentPrice with
    | none => evaluateMarginCallRisk alert rest
    | some c =>
      if c = 0 ∨ position.marginUsed = 0 then evaluateMarginCallRisk alert rest
      else
        let conditionValue := getConditionValue alert.conditions "margin_risk"
        let riskThreshold := if conditionValue = 0 then 25 else conditionValue
        let marginPercent := engineMarginPercent c position.shares position.marginUsed
        if marginPercent ≤ riskThreshold then
          some (createTriggeredAlert alert (some position.symbol)
            (some marginPercent) (some riskThreshold) (some Severity.critical))
        else evaluateMarginCallRisk alert rest

/-- `AlertEngine.evaluateAlert` (lines 117-213): restrict the candidate
positions to the configuration's symbol scope (all positions when
unscoped), then dispatch on the alert type. -/
def evaluateAlert (alert : AlertConfiguration) (positions : List TrackingEntry) :
    Option TriggeredAlert :=
  let relevantPositions :=
    match alert.symbol with
    | some s => positions.filter fun p => p.symbol = s
    | none => positions
  match alert.atype with
  | AlertType.percentage_gain => evaluatePercentageGain alert relevantPositions
  | AlertType.dollar_profit => evaluateDollarProfit alert relevantPositions
  | AlertType.price_target => evaluatePriceTarget alert relevantPositions
  | AlertType.resistance_breach => evaluateResistanceBreach alert relevantPositions
  | AlertType.percentage_loss => evaluatePercentageLoss alert relevantPositions
  | AlertType.dollar_loss => evaluateDollarLoss alert relevantPositions
  | AlertType.support_break => evaluateSupportBreak alert relevantPositions
  | AlertType.margin_call_risk => evaluateMarginCallRisk alert relevantPositions

/-- The list of newly triggered alerts produced by one
`AlertEngine.evaluateAlerts` pass (lines 90-106): only enabled
configurations are evaluated, each contributing its evaluator's
at-most-one result. -/
def evaluateAlertsNew (alerts : List AlertConfiguration)
    (positions : List TrackingEntry) : List TriggeredAlert :=
  (alerts.filter fun a => a.enabled).filterMap fun a => evaluateAlert a positions

/-- The engine's persisted state: configurations and the triggered-alert
collection. -/
structure AlertEngineState where
  alerts : List AlertConfiguration
  triggeredAlerts : List TriggeredAlert
deriving DecidableEq, Repr

/-- `AlertEngine.evaluateAlerts` (lines 90-115): returns the newly
triggered alerts and appends them to the persisted collection. -/
def evaluateAlerts (st : AlertEngineState) (positions : List TrackingEntry) :
    List TriggeredAlert × AlertEngineState :=
  let newAlerts := evaluateAlertsNew st.alerts positions
  (newAlerts, { st with triggeredAlerts := st.triggeredAlerts ++ newAlerts })

/-! ### Spec-side predicates and concrete examples used by the theorems -/

/-- Eligibility guard shared by the per-position price evaluators
(`!position.currentPrice || position.status !== 'active'`, negated):
a truthy current price and active status. -/
def eligibleForPriceAlert (p : TrackingEntry) : Bool :=
  match p.currentPrice with
  | some c => decide (c ≠ 0 ∧ p.status = Status.active)
  | none => false

/-- The triggering predicate of the percentage-gain evaluator, as the spec
states it: eligible and gain-over-entry at least the configured
threshold. -/
def pgTriggers (alert : AlertConfiguration) (p : TrackingEntry) : Bool :=
  match p.currentPrice with
  | some c =>
    decide (c ≠ 0 ∧ p.status = Status.active ∧
      getConditionValue alert.conditions "percentage_gain" ≤
        (c - p.entryPrice) / p.entryPrice * 100)
  | none => false

/-- The alert the percentage-gain evaluator builds for a triggering
position. -/
def pgAlertOf (alert : AlertConfiguration) (p : TrackingEntry) : TriggeredAlert :=
  createTriggeredAlert alert (some p.symbol)
    (some ((p.currentPrice.getD 0 - p.entryPrice) / p.entryPrice * 100))
    (some (getConditionValue alert.conditions "percentage_gain")) none

/-- The worked example of spec section 8: entry price $100, 10 shares,
$500 margin, $500 own cash, not a gold subscriber, 30-day duration. -/
def eSpec : TrackingEntry :=
  { id := "1"
    symbol := "TEST"
    stockName := "Test Stock"
    entryDate := 0
    entryPrice := 100
    exitPrice := 120
    stopLoss := 90
    shares := 10
    investmentAmount := 1000
    marginUsed := 500
    ownCash := 500
    marginRatio := 2
    tradeDuration := 30
    isGoldSubscriber := false
    status := Status.active
    dailyUpdates := []
    currentPrice := some 100
    currentProfit := 0
    currentROI := 0
    daysElapsed := 0
    totalInterestPaid := 0
    expirationDate := some (30 * msPerDay)
    riskAlerts := []
    lastRiskCheck := 0 }

/-- The 5% percentage-gain configuration of the spec's alert example. -/
def gainCfg5 : AlertConfiguration :=
  { id := "cfg5"
    atype := AlertType.percentage_gain
    symbol := none
    conditions := [{ field := "percentage_gain", operator := ">=", value := 5 }]
    severity := Severity.medium
    enabled := true }

/-- An active position sitting at a 6% gain over its entry price. -/
def posGain6 : TrackingEntry :=
  { eSpec with id := "p6", symbol := "GAIN", currentPrice := some 106 }

/-- Yesterday's daily update with an ROI of exactly zero. -/
def duRoiZero : DailyUpdate :=
  { date := 0, price := 100, profit := 0, loss := 0, totalInterest := 0
    roi := 0, marginCallRisk := false }

/-- The following day's update with a negative ROI. -/
def duRoiNeg : DailyUpdate :=
  { date := 1, price := 99, profit := -10, loss := 10, totalInterest := 0
    roi := -1, marginCallRisk := false }

/-- An entry whose last two daily updates have ROIs 0 and -1: the
sudden-loss quotient divides by `|0|`. Its other fields are chosen so that
no other risk rule fires (price unchanged from entry, no shares, only two
updates). -/
def eSuddenLoss : TrackingEntry :=
  { eSpec with
    id := "sl"
    shares := 0
    currentROI := -1
    dailyUpdates := [duRoiZero, duRoiNeg] }

/-- A position that has hit its stop loss. -/
def eStopped : TrackingEntry := { eSpec with status := Status.stopped }

/-- The triggered alert produced for `gainCfg5` against `posGain6`. -/
def gainAlert6 : TriggeredAlert :=
  { alertId := "cfg5"
    atype := AlertType.percentage_gain
    symbol := some "GAIN"
    severity := Severity.medium
    status := AlertStatus.triggered
    currentValue := some 6
    targetValue := some 5 }

/-! ### Helper lemmas -/

/-- The maintained daily-update list always ends with the fresh record. -/
theorem appendOrOverwrite_getLast (l : List DailyUpdate) (du : DailyUpdate) :
    (appendOrOverwrite l du).getLast? = some du := by
  unfold appendOrOverwrite
  cases h : l.getLast? with
  | none => simp [List.getLast?_concat]
  | some lu => by_cases hd : lu.date = du.date <;> simp [hd, List.getLast?_concat]

/-- The daily-update list produced by one calculator run, exposed through
`appendOrOverwrite` and the fresh record's fields. -/
theorem calculateDailyUpdate_dailyUpdates (now : Int) (e : TrackingEntry) (q : ℚ) :
    (calculateDailyUpdate now e q).dailyUpdates =
      appendOrOverwrite e.dailyUpdates
        { date := dateOf now
          price := q
          profit := (q - e.entryPrice) * e.shares
          loss := if (q - e.entryPrice) * e.shares < 0 then |(q - e.entryPrice) * e.shares| else 0
          totalInterest := (calculateDailyUpdate now e q).totalInterestPaid
          roi := (calculateDailyUpdate now e q).currentROI
          marginCallRisk := decide (0 < e.shares) &&
            decide (q ≤ marginCallPriceOf e.shares e.marginUsed) } := rfl

/-! ### C1: margin-call price and flag of the Daily Update Calculator -/

/-- C1. For every position processed by `calculateDailyUpdate`: when
`shares > 0` the margin-call price is `(marginUsed * 4/3) / shares` and
the recorded `marginCallRisk` flag holds iff the quote is at most that
price; when `shares = 0` the price is 0 and the flag is false. -/
theorem C1_marginCallRule (now : Int) (e : TrackingEntry) (q : ℚ) :
    ∃ d : DailyUpdate,
      (calculateDailyUpdate now e q).dailyUpdates.getLast? = some d ∧
      (0 < e.shares →
        marginCallPriceOf e.shares e.marginUsed = e.marginUsed * (4 / 3) / e.shares ∧
        (d.marginCallRisk = true ↔ q ≤ marginCallPriceOf e.shares e.marginUsed)) ∧
      (e.shares = 0 →
        marginCallPriceOf e.shares e.marginUsed = 0 ∧ d.marginCallRisk = false) := by
  refine ⟨_, by rw [calculateDailyUpdate_dailyUpdates]; exact appendOrOverwrite_getLast _ _,
    fun hs => ⟨?_, ?_⟩, fun hs => ⟨?_, ?_⟩⟩
  · rw [marginCallPriceOf, if_pos hs]; ring
  · simp [hs]
  · rw [marginCallPriceOf, if_neg (by simp [hs])]
  · simp [hs]

/-- C1 witness: the spec's example (entry $100, 10 shares, $500 margin)
has margin-call price 500·(4/3)/10 = 200/3 ≈ $66.67, and at a quote of
$60 the recorded flag is true. -/
theorem C1_marginCallRule_witness :
    (0:ℚ) < eSpec.shares ∧
    marginCallPriceOf eSpec.shares eSpec.marginUsed =
      eSpec.marginUsed * (4 / 3) / eSpec.shares ∧
    |marginCallPriceOf eSpec.shares eSpec.marginUsed - 66.67| ≤ 1 / 100 ∧
    (∃ d, (calculateDailyUpdate 0 eSpec 60).dailyUpdates.getLast? = some d ∧
      d.marginCallRisk = true) := by
  obtain ⟨d, hd, hpos, -⟩ := C1_marginCallRule 0 eSpec 60
  have h10 : (0:ℚ) < eSpec.shares := by norm_num [eSpec]
  obtain ⟨heq, hiff⟩ := hpos h10
  exact ⟨h10, heq, by norm_num [marginCallPriceOf, eSpec, abs_le],
    d, hd, hiff.mpr (by norm_num [marginCallPriceOf, eSpec])⟩

/-! ### C2: margin interest, profit and ROI of the Daily Update Calculator -/

/-- C2. The calculator charges `chargeableMargin * (annualRate/365/100) *
daysElapsed` where the annual rate follows the six-tier schedule on the
borrowed amount and gold subscribers get a $1,000 interest-free allowance;
net profit is gross profit minus interest, and ROI is profit over own cash
times 100 when own cash is positive, else 0. -/
theorem C2_interestProfitRoi (now : Int) (e : TrackingEntry) (q : ℚ) :
    ((e.marginUsed ≤ 50000 → getRobinhoodMarginRate e.marginUsed = 5.75) ∧
     (50000 < e.marginUsed → e.marginUsed ≤ 100000 →
        getRobinhoodMarginRate e.marginUsed = 5.55) ∧
     (100000 < e.marginUsed → e.marginUsed ≤ 1000000 →
        getRobinhoodMarginRate e.marginUsed = 5.25) ∧
     (1000000 < e.marginUsed → e.marginUsed ≤ 10000000 →
        getRobinhoodMarginRate e.marginUsed = 5) ∧
     (10000000 < e.marginUsed → e.marginUsed ≤ 50000000 →
        getRobinhoodMarginRate e.marginUsed = 4.95) ∧
     (50000000 < e.marginUsed → getRobinhoodMarginRate e.marginUsed = 4.7)) ∧
    (calculateDailyUpdate now e q).daysElapsed = (now - e.entryDate).fdiv msPerDay ∧
    (calculateDailyUpdate now e q).totalInterestPaid =
      (if e.isGoldSubscriber then max 0 (e.marginUsed - 1000) else e.marginUsed) *
        (getRobinhoodMarginRate e.marginUsed / 365 / 100) *
        (((now - e.entryDate).fdiv msPerDay : Int) : ℚ) ∧
    (calculateDailyUpdate now e q).currentProfit =
      (q - e.entryPrice) * e.shares - (calculateDailyUpdate now e q).totalInterestPaid ∧
    (0 < e.ownCash → (calculateDailyUpdate now e q).currentROI =
      (calculateDailyUpdate now e q).currentProfit / e.ownCash * 100) ∧
    (e.ownCash ≤ 0 → (calculateDailyUpdate now e q).currentROI = 0) := by
  have hre : (calculateDailyUpdate now e q).currentROI =
      if 0 < e.ownCash then (calculateDailyUpdate now e q).currentProfit / e.ownCash * 100
      else 0 := rfl
  refine ⟨⟨fun h => ?_, fun h1 h2 => ?_, fun h1 h2 => ?_, fun h1 h2 => ?_,
    fun h1 h2 => ?_, fun h => ?_⟩, rfl, rfl, rfl,
    fun h => by rw [hre, if_pos h], fun h => by rw [hre, if_neg (not_lt.mpr h)]⟩ <;>
    (unfold getRobinhoodMarginRate; split_ifs <;> first | rfl | linarith)

/-- C2 witness: the spec's worked example (30 days elapsed, quote $110)
yields total interest ≈ $2.36, gross profit $100, net profit ≈ $97.64 and
ROI ≈ 19.53%. -/
theorem C2_interestProfitRoi_witness :
    getRobinhoodMarginRate eSpec.marginUsed = 5.75 ∧
    (calculateDailyUpdate (30 * msPerDay) eSpec 110).currentROI =
      (calculateDailyUpdate (30 * msPerDay) eSpec 110).currentProfit / eSpec.ownCash * 100 ∧
    (calculateDailyUpdate (30 * msPerDay) eSpec 110).daysElapsed = 30 ∧
    (2.35 ≤ (calculateDailyUpdate (30 * msPerDay) eSpec 110).totalInterestPaid ∧
      (calculateDailyUpdate (30 * msPerDay) eSpec 110).totalInterestPaid ≤ 2.37) ∧
    ((110 : ℚ) - eSpec.entryPrice) * eSpec.shares = 100 ∧
    (97.63 ≤ (calculateDailyUpdate (30 * msPerDay) eSpec 110).currentProfit ∧
      (calculateDailyUpdate (30 * msPerDay) eSpec 110).currentProfit ≤ 97.65) ∧
    (19.52 ≤ (calculateDailyUpdate (30 * msPerDay) eSpec 110).currentROI ∧
      (calculateDailyUpdate (30 * msPerDay) eSpec 110).currentROI ≤ 19.54) := by
  obtain ⟨⟨ht1, -, -, -, -, -⟩, hdays, hint, hprof, hroi, -⟩ :=
    C2_interestProfitRoi (30 * msPerDay) eSpec 110
  have hrate : getRobinhoodMarginRate eSpec.marginUsed = 5.75 := ht1 (by norm_num [eSpec])
  have hfdiv : (30 * msPerDay - eSpec.entryDate).fdiv msPerDay = 30 := by decide
  have hintval :
      (calculateDailyUpdate (30 * msPerDay) eSpec 110).totalInterestPaid = 345 / 146 := by
    rw [hint, hrate, hfdiv]; norm_num [eSpec]
  have hprofval :
      (calculateDailyUpdate (30 * msPerDay) eSpec 110).currentProfit = 14255 / 146 := by
    rw [hprof, hintval]; norm_num [eSpec]
  have hroival :
      (calculateDailyUpdate (30 * msPerDay) eSpec 110).currentROI = 2851 / 146 := by
    rw [hroi (by norm_num [eSpec]), hprofval]; norm_num [eSpec]
  refine ⟨hrate, hroi (by norm_num [eSpec]), ?_, ?_, by norm_num [eSpec], ?_, ?_⟩
  · rw [hdays, hfdiv]
  · rw [hintval]; constructor <;> norm_num
  · rw [hprofval]; constructor <;> norm_num
  · rw [hroival]; constructor <;> norm_num

/-! ### C3: lifecycle transitions of the Daily Update Calculator -/

/-- C3. For an active position: if the expiration date has passed the
status becomes expired and the exit/stop checks are skipped; otherwise a
quote at or above the exit price completes the position, a quote at or
below the stop loss stops it, and anything in between leaves it active. -/
theorem C3_statusTransitions (now : Int) (e : TrackingEntry) (q : ℚ)
    (hactive : e.status = Status.active) :
    (∀ exp, e.expirationDate = some exp → exp ≤ now →
      (calculateDailyUpdate now e q).status = Status.expired) ∧
    ((∀ exp, e.expirationDate = some exp → now < exp) →
      ((e.exitPrice ≤ q → (calculateDailyUpdate now e q).status = Status.completed) ∧
       (q < e.exitPrice → q ≤ e.stopLoss →
          (calculateDailyUpdate now e q).status = Status.stopped) ∧
       (q < e.exitPrice → e.stopLoss < q →
          (calculateDailyUpdate now e q).status = Status.active))) := by
  constructor
  · intro exp he hle
    simp [calculateDailyUpdate, he, hle, hactive]
  · intro hno
    rcases he : e.expirationDate with - | exp
    · exact ⟨fun h => by simp [calculateDailyUpdate, he, hactive, h],
        fun h1 h2 => by simp [calculateDailyUpdate, he, hactive, not_le.mpr h1, h2],
        fun h1 h2 => by simp [calculateDailyUpdate, he, hactive, not_le.mpr h1, not_le.mpr h2]⟩
    · have hlt := not_le.mpr (hno exp he)
      exact ⟨fun h => by simp [calculateDailyUpdate, he, hactive, hlt, h],
        fun h1 h2 => by simp [calculateDailyUpdate, he, hactive, hlt, not_le.mpr h1, h2],
        fun h1 h2 => by
          simp [calculateDailyUpdate, he, hactive, hlt, not_le.mpr h1, not_le.mpr h2]⟩

/-- C3 witness: the example position, refreshed before expiration with a
quote above its exit price, completes. -/
theorem C3_statusTransitions_witness :
    (calculateDailyUpdate 0 eSpec 125).status = Status.completed := by
  obtain ⟨-, hrest⟩ := C3_statusTransitions 0 eSpec 125 rfl
  refine (hrest fun exp hexp => ?_).1 (by norm_num [eSpec])
  simp only [eSpec, msPerDay, Option.some.injEq] at hexp
  omega

/-! ### C4: same-day refresh overwrites, one entry per date -/

/-- Overwriting keeps the list length when the last record carries the
fresh record's date. -/
theorem appendOrOverwrite_length_same (l : List DailyUpdate) (du lu : DailyUpdate)
    (h : l.getLast? = some lu) (hd : lu.date = du.date) :
    (appendOrOverwrite l du).length = l.length := by
  have hne : l ≠ [] := by intro e; subst e; simp at h
  have hpos : 0 < l.length := List.length_pos.mpr hne
  have heq : appendOrOverwrite l du =
      if lu.date ≠ du.date then l ++ [du] else l.dropLast ++ [du] := by
    unfold appendOrOverwrite
    rw [h]
  rw [heq, if_neg (by simp [hd])]
  simp [List.length_dropLast]
  omega

/-- One maintenance step preserves strictly increasing dates bounded by
the fresh record's date. -/
theorem appendOrOverwrite_chain (l : List DailyUpdate) (du : DailyUpdate)
    (hc : List.Chain' (· < ·) (l.map DailyUpdate.date))
    (hle : ∀ d ∈ l.map DailyUpdate.date, d ≤ du.date) :
    List.Chain' (· < ·) ((appendOrOverwrite l du).map DailyUpdate.date) ∧
    ∀ d ∈ (appendOrOverwrite l du).map DailyUpdate.date, d ≤ du.date := by
  cases h : l.getLast? with
  | none =>
    have hnil : l = [] := by
      cases l with
      | nil => rfl
      | cons a as => simp [List.getLast?_concat] at h
    subst hnil
    simp [appendOrOverwrite]
  | some lu =>
    have heq : appendOrOverwrite l du =
        if lu.date ≠ du.date then l ++ [du] else l.dropLast ++ [du] := by
      unfold appendOrOverwrite
      rw [h]
    rw [heq]
    have hsplit : l.dropLast ++ [lu] = l := List.dropLast_append_getLast? lu h
    have hpw : List.Pairwise (· < ·) (l.map DailyUpdate.date) :=
      List.chain'_iff_pairwise.mp hc
    have hpw2 : List.Pairwise (· < ·)
        ((l.dropLast.map DailyUpdate.date) ++ [lu.date]) := by
      have := hsplit ▸ hpw
      simpa [List.map_append] using this
    rw [List.pairwise_append] at hpw2
    have hmem : lu ∈ l := by rw [← hsplit]; simp
    by_cases hd : lu.date = du.date
    · rw [if_neg (by simp [hd])]
      constructor
      · rw [List.map_append, List.chain'_append]
        refine ⟨List.chain'_iff_pairwise.mpr hpw2.1, by simp, ?_⟩
        intro x hx y hy
        simp only [List.map_cons, List.map_nil, List.head?_cons, Option.mem_def,
          Option.some.injEq] at hy
        subst hy
        rw [← hd]
        have hxmem : x ∈ l.dropLast.map DailyUpdate.date := by
          cases hl : (l.dropLast.map DailyUpdate.date).getLast? with
          | none => rw [hl] at hx; cases hx
          | some z =>
            rw [hl] at hx
            have hxz : z = x := by simpa using hx
            subst hxz
            have hs2 := List.dropLast_append_getLast? z hl
            rw [← hs2]
            simp
        exact hpw2.2.2 x hxmem lu.date (by simp)
      · intro d hd2
        rw [List.map_append] at hd2
        rcases List.mem_append.mp hd2 with h1 | h1
        · refine hle d ?_
          rw [← hsplit, List.map_append]
          exact List.mem_append.mpr (Or.inl h1)
        · simp only [List.map_cons, List.map_nil, List.mem_singleton] at h1
          subst h1
          exact le_rfl
    · rw [if_pos (by simp [hd])]
      constructor
      · rw [List.map_append, List.chain'_append]
        refine ⟨hc, by simp, ?_⟩
        intro x hx y hy
        simp only [List.map_cons, List.map_nil, List.head?_cons, Option.mem_def,
          Option.some.injEq] at hy
        subst hy
        have hxl : (l.map DailyUpdate.date).getLast? = some lu.date := by
          rw [← hsplit, List.map_append]
          simp
        rw [hxl] at hx
        cases hx
        exact lt_of_le_of_ne (hle lu.date (List.mem_map_of_mem _ hmem)) hd
      · intro d hd2
        rw [List.map_append] at hd2
        rcases List.mem_append.mp hd2 with h1 | h1
        · exact hle d h1
        · simp only [List.map_cons, List.map_nil, List.mem_singleton] at h1
          subst h1
          exact le_rfl

/-- C4. Running the Daily Update Calculator twice within the same
calendar day leaves the `dailyUpdates` length unchanged, and — under the
maintained invariant that past dates are strictly increasing and not in
the future — the dates stay pairwise distinct (at most one record per
date). -/
theorem C4_sameDayOverwrite (e : TrackingEntry) (q : ℚ) (now1 now2 : Int)
    (hday : dateOf now1 = dateOf now2) :
    (calculateDailyUpdate now2 (calculateDailyUpdate now1 e q) q).dailyUpdates.length =
      (calculateDailyUpdate now1 e q).dailyUpdates.length ∧
    (List.Chain' (· < ·) (e.dailyUpdates.map DailyUpdate.date) →
      (∀ d ∈ e.dailyUpdates.map DailyUpdate.date, d ≤ dateOf now1) →
      ((calculateDailyUpdate now2 (calculateDailyUpdate now1 e q) q).dailyUpdates.map
          DailyUpdate.date).Nodup) := by
  have h1 :
      (calculateDailyUpdate now1 e q).dailyUpdates.getLast? =
        some { date := dateOf now1
               price := q
               profit := (q - e.entryPrice) * e.shares
               loss := if (q - e.entryPrice) * e.shares < 0 then
                   |(q - e.entryPrice) * e.shares| else 0
               totalInterest := (calculateDailyUpdate now1 e q).totalInterestPaid
               roi := (calculateDailyUpdate now1 e q).currentROI
               marginCallRisk := decide (0 < e.shares) &&
                 decide (q ≤ marginCallPriceOf e.shares e.marginUsed) } := by
    rw [calculateDailyUpdate_dailyUpdates]
    exact appendOrOverwrite_getLast _ _
  constructor
  · rw [calculateDailyUpdate_dailyUpdates now2 (calculateDailyUpdate now1 e q) q]
    exact appendOrOverwrite_length_same _ _ _ h1 hday
  · intro hc hle
    have step1 := appendOrOverwrite_chain e.dailyUpdates
      { date := dateOf now1
        price := q
        profit := (q - e.entryPrice) * e.shares
        loss := if (q - e.entryPrice) * e.shares < 0 then
            |(q - e.entryPrice) * e.shares| else 0
        totalInterest := (calculateDailyUpdate now1 e q).totalInterestPaid
        roi := (calculateDailyUpdate now1 e q).currentROI
        marginCallRisk := decide (0 < e.shares) &&
          decide (q ≤ marginCallPriceOf e.shares e.marginUsed) } hc hle
    rw [← calculateDailyUpdate_dailyUpdates] at step1
    have step2 := appendOrOverwrite_chain (calculateDailyUpdate now1 e q).dailyUpdates
      { date := dateOf now2
        price := q
        profit := (q - (calculateDailyUpdate now1 e q).entryPrice) *
          (calculateDailyUpdate now1 e q).shares
        loss := if (q - (calculateDailyUpdate now1 e q).entryPrice) *
            (calculateDailyUpdate now1 e q).shares < 0 then
            |(q - (calculateDailyUpdate now1 e q).entryPrice) *
              (calculateDailyUpdate now1 e q).shares| else 0
        totalInterest :=
          (calculateDailyUpdate now2 (calculateDailyUpdate now1 e q) q).totalInterestPaid
        roi := (calculateDailyUpdate now2 (calculateDailyUpdate now1 e q) q).currentROI
        marginCallRisk := decide (0 < (calculateDailyUpdate now1 e q).shares) &&
          decide (q ≤ marginCallPriceOf (calculateDailyUpdate now1 e q).shares
            (calculateDailyUpdate now1 e q).marginUsed) }
      step1.1 (by rw [hday] at step1; exact step1.2)
    rw [← calculateDailyUpdate_dailyUpdates] at step2
    exact (List.chain'_iff_pairwise.mp step2.1).imp ne_of_lt

/-- C4 witness: a fresh position refreshed twice at the same instant keeps
a single, duplicate-free daily update. -/
theorem C4_sameDayOverwrite_witness :
    (calculateDailyUpdate 0 (calculateDailyUpdate 0 eSpec 100) 100).dailyUpdates.length =
      (calculateDailyUpdate 0 eSpec 100).dailyUpdates.length ∧
    ((calculateDailyUpdate 0 (calculateDailyUpdate 0 eSpec 100) 100).dailyUpdates.map
        DailyUpdate.date).Nodup := by
  obtain ⟨hlen, hnd⟩ := C4_sameDayOverwrite eSpec 100 0 0 rfl
  exact ⟨hlen, hnd (by simp [eSpec]) (by simp [eSpec])⟩

/-! ### C5: lifecycle monotonicity across store operations -/

/-- The calculator never reactivates a non-active position. -/
theorem calc_status_not_active (now : Int) (e : TrackingEntry) (q : ℚ)
    (h : e.status ≠ Status.active) :
    (calculateDailyUpdate now e q).status ≠ Status.active := by
  have hst : (calculateDailyUpdate now e q).status =
      (let status1 : Status :=
        match e.expirationDate with
        | some expiration =>
          if expiration ≤ now ∧ e.status = Status.active then Status.expired else e.status
        | none => e.status
      if status1 ≠ Status.expired then
        if e.exitPrice ≤ q then Status.completed
        else if q ≤ e.stopLoss then Status.stopped
        else status1
      else status1) := rfl
  rw [hst]
  cases he : e.expirationDate <;> simp [he] <;> split_ifs <;> simp_all

/-- The calculator and the refresh step preserve the id. -/
theorem updateDailyPricesStep_id (now : Int) (quotes : String → Option ℚ)
    (e : TrackingEntry) : (updateDailyPricesStep now quotes e).id = e.id := by
  unfold updateDailyPricesStep
  split
  · cases quotes e.symbol <;> rfl
  · rfl

/-- Non-active entries are untouched by the daily refresh. -/
theorem updateDailyPricesStep_not_active (now : Int) (quotes : String → Option ℚ)
    (e : TrackingEntry) (h : e.status ≠ Status.active) :
    updateDailyPricesStep now quotes e = e := by
  unfold updateDailyPricesStep
  rw [if_neg h]

/-- The reactivation invariant: every entry under the id is non-active. -/
def idInactive (id : String) (store : List TrackingEntry) : Prop :=
  ∀ e ∈ store, e.id = id → e.status ≠ Status.active

/-- A renewal of a different id preserves the invariant. -/
theorem renew_preserves_idInactive (idR : String) (d : Int) (id : String)
    (hne : idR ≠ id) :
    ∀ store : List TrackingEntry, idInactive id store →
      idInactive id (renewTrackingEntry idR d store)
  | [], _ => by intro e he; cases he
  | a :: rest, h => by
    intro e he hid
    unfold renewTrackingEntry at he
    by_cases ha : a.id = idR
    · rw [if_pos ha] at he
      rcases List.mem_cons.mp he with h1 | h1
      · subst h1
        exact absurd (ha.symm.trans hid) hne
      · exact h e (List.mem_cons_of_mem a h1) hid
    · rw [if_neg ha] at he
      rcases List.mem_cons.mp he with h1 | h1
      · subst h1
        exact h _ (List.mem_cons_self _ _) hid
      · exact renew_preserves_idInactive idR d id hne rest
          (fun x hx => h x (List.mem_cons_of_mem a hx)) e h1 hid

/-- Acknowledging an alert preserves every entry's id and status. -/
theorem ack_preserves_idInactive (entryId alertId : String) (id : String) :
    ∀ store : List TrackingEntry, idInactive id store →
      idInactive id (acknowledgeRiskAlert entryId alertId store)
  | [], _ => by intro e he; cases he
  | a :: rest, h => by
    intro e he hid
    unfold acknowledgeRiskAlert at he
    by_cases ha : a.id = entryId
    · rw [if_pos ha] at he
      rcases List.mem_cons.mp he with h1 | h1
      · subst h1
        exact h a (List.mem_cons_self a rest) hid
      · exact h e (List.mem_cons_of_mem a h1) hid
    · rw [if_neg ha] at he
      rcases List.mem_cons.mp he with h1 | h1
      · subst h1
        exact h _ (List.mem_cons_self _ _) hid
      · exact ack_preserves_idInactive entryId alertId id rest
          (fun x hx => h x (List.mem_cons_of_mem a hx)) e h1 hid

/-- Every store operation that neither renews the id nor adds a fresh
entry under it preserves the invariant. -/
theorem applyOp_preserves_idInactive (id : String) (store : List TrackingEntry)
    (op : StoreOp) (hop : opRevivesId id op = false) (h : idInactive id store) :
    idInactive id (applyOp store op) := by
  cases op with
  | daily now quotes =>
    intro e he hid
    simp only [applyOp, updateDailyPrices, List.mem_map] at he
    obtain ⟨e0, he0, rfl⟩ := he
    have hid0 : e0.id = id := by rw [← updateDailyPricesStep_id now quotes e0]; exact hid
    have hna : e0.status ≠ Status.active := h e0 he0 hid0
    rw [updateDailyPricesStep_not_active now quotes e0 hna]
    exact hna
  | renewOp idR d =>
    have hne : idR ≠ id := by
      simp only [opRevivesId, decide_eq_false_iff_not] at hop
      exact hop
    exact renew_preserves_idInactive idR d id hne store h
  | addOp now2 idA p =>
    have hne : idA ≠ id := by
      simp only [opRevivesId, decide_eq_false_iff_not] at hop
      exact hop
    intro e he hid
    simp only [applyOp] at he
    rcases List.mem_append.mp he with h1 | h1
    · exact h e h1 hid
    · simp only [List.mem_singleton] at h1
      subst h1
      exact absurd hid hne
  | removeOp idX =>
    intro e he hid
    simp only [applyOp, removeTrackingEntry] at he
    exact h e (List.mem_of_mem_filter he) hid
  | ackOp entryId alertId =>
    exact ack_preserves_idInactive entryId alertId id store h

/-- The invariant is preserved along any trace of non-reviving
operations. -/
theorem runOps_preserves_idInactive (id : String) :
    ∀ (ops : List StoreOp) (store : List TrackingEntry),
      (∀ op ∈ ops, opRevivesId id op = false) → idInactive id store →
      idInactive id (runOps ops store)
  | [], store, _, h => h
  | op :: ops, store, hops, h => by
    have hstep := applyOp_preserves_idInactive id store op
      (hops op (List.mem_cons_self op ops)) h
    exact runOps_preserves_idInactive id ops (applyOp store op)
      (fun x hx => hops x (List.mem_cons_of_mem op hx)) hstep

/-- Renewal of an id absent from the store is a no-op. -/
theorem renewTrackingEntry_absent (id : String) (d : Int) :
    ∀ store : List TrackingEntry, (∀ e ∈ store, e.id ≠ id) →
      renewTrackingEntry id d store = store
  | [], _ => rfl
  | a :: rest, h => by
    unfold renewTrackingEntry
    rw [if_neg (h a (List.mem_cons_self a rest))]
    rw [renewTrackingEntry_absent id d rest (fun x hx => h x (List.mem_cons_of_mem a hx))]

/-- Renewal of the first entry carrying the id: the expiration date is
extended by the additional days, the stored duration grows by them, and
the status is forced back to active. -/
theorem renewTrackingEntry_found (id : String) (d : Int) :
    ∀ (pre : List TrackingEntry) (e : TrackingEntry) (rest : List TrackingEntry),
      (∀ x ∈ pre, x.id ≠ id) → e.id = id →
      renewTrackingEntry id d (pre ++ e :: rest) =
        pre ++ { e with
          expirationDate := some ((e.expirationDate.getD e.entryDate) + d * msPerDay)
          tradeDuration := e.tradeDuration + d
          status := Status.active } :: rest
  | [], e, rest, _, he => by
    simp only [List.nil_append]
    unfold renewTrackingEntry
    rw [if_pos he]
  | a :: pre, e, rest, hpre, he => by
    simp only [List.cons_append]
    unfold renewTrackingEntry
    rw [if_neg (hpre a (List.mem_cons_self a pre))]
    rw [renewTrackingEntry_found id d pre e rest
      (fun x hx => hpre x (List.mem_cons_of_mem a hx)) he]

/-- C5. Once a position's status is expired, completed or stopped, no
daily update (single-entry or store-wide) reactivates it: along any trace
of store operations that contains no renewal of (and no fresh insertion
under) its id, it stays non-active. The one reactivating operation is an
explicit `renewTrackingEntry`, which also extends the expiration date by
the additional days and adds them to the stored duration; renewing an
absent id is a no-op. -/
theorem C5_lifecycleMonotonicity :
    (∀ (now : Int) (e : TrackingEntry) (q : ℚ), e.status ≠ Status.active →
      (calculateDailyUpdate now e q).status ≠ Status.active) ∧
    (∀ (ops : List StoreOp) (store : List TrackingEntry) (id : String),
      (∀ op ∈ ops, opRevivesId id op = false) →
      (∀ e ∈ store, e.id = id → e.status ≠ Status.active) →
      ∀ e ∈ runOps ops store, e.id = id → e.status ≠ Status.active) ∧
    (∀ (id : String) (d : Int) (store : List TrackingEntry),
      (∀ e ∈ store, e.id ≠ id) → renewTrackingEntry id d store = store) ∧
    (∀ (id : String) (d : Int) (pre : List TrackingEntry) (e : TrackingEntry)
        (rest : List TrackingEntry),
      (∀ x ∈ pre, x.id ≠ id) → e.id = id →
      renewTrackingEntry id d (pre ++ e :: rest) =
        pre ++ { e with
          expirationDate := some ((e.expirationDate.getD e.entryDate) + d * msPerDay)
          tradeDuration := e.tradeDuration + d
          status := Status.active } :: rest) :=
  ⟨calc_status_not_active,
   fun ops store id hops h => runOps_preserves_idInactive id ops store hops h,
   fun id d store h => renewTrackingEntry_absent id d store h,
   fun id d pre e rest hpre he => renewTrackingEntry_found id d pre e rest hpre he⟩

/-- C5 witness: a stopped position stays non-active through a renewal of a
different id and a store-wide daily refresh; renewing an absent id leaves
the store unchanged; renewing the position's own id reactivates it with
the extended expiration and duration. -/
theorem C5_lifecycleMonotonicity_witness :
    (calculateDailyUpdate 0 eStopped 50).status ≠ Status.active ∧
    (∀ e ∈ runOps [StoreOp.renewOp "other" 5, StoreOp.daily 0 (fun _ => some 50)]
        [eStopped], e.id = "1" → e.status ≠ Status.active) ∧
    renewTrackingEntry "zz" 5 [eStopped] = [eStopped] ∧
    renewTrackingEntry "1" 7 [eStopped] =
      [{ eStopped with
          expirationDate := some ((eStopped.expirationDate.getD eStopped.entryDate) +
            7 * msPerDay)
          tradeDuration := eStopped.tradeDuration + 7
          status := Status.active }] := by
  obtain ⟨h1, h2, h3, h4⟩ := C5_lifecycleMonotonicity
  refine ⟨h1 0 eStopped 50 (by decide), h2 _ _ "1" (by decide) ?_, h3 "zz" 5 [eStopped] ?_,
    by simpa using h4 "1" 7 [] eStopped [] (by simp) rfl⟩
  · intro e he hid
    simp only [List.mem_singleton] at he
    subst he
    decide
  · intro e he
    simp only [List.mem_singleton] at he
    subst he
    decide

/-! ### C8: division guards and the unguarded sudden-loss quotient -/

/-- C8 counterexample: with yesterday's ROI equal to 0 and today's ROI
negative, the sudden-loss quotient is `-Infinity` — a non-finite value —
and `checkForRiskAlerts` feeds it into its comparisons, emitting a
high-severity sudden-loss alert (since `-Infinity < -25`). This refutes
the claim that every division of the Risk Alert Generator is guarded and
no computed value is ever non-finite. -/
theorem C8_counterexample :
    suddenLossChange duRoiZero duRoiNeg = JsNum.negInf ∧
    (suddenLossChange duRoiZero duRoiNeg).isFinite = false ∧
    (checkForRiskAlerts eSuddenLoss).map (fun a => (a.rtype, a.severity)) =
      [(RiskAlertType.sudden_loss, Severity.high)] := by
  have hchange : suddenLossChange duRoiZero duRoiNeg = JsNum.negInf := by
    unfold suddenLossChange jsDivFin
    norm_num [duRoiZero, duRoiNeg, jsMul100]
  refine ⟨hchange, by rw [hchange]; rfl, ?_⟩
  unfold checkForRiskAlerts
  norm_num only [show eSuddenLoss.dailyUpdates = [duRoiZero, duRoiNeg] from rfl,
    show eSuddenLoss.currentPrice = some (100:ℚ) from rfl,
    show eSuddenLoss.entryPrice = (100:ℚ) from rfl,
    show eSuddenLoss.currentROI = (-1:ℚ) from rfl,
    show eSuddenLoss.shares = (0:ℚ) from rfl,
    show eSuddenLoss.marginUsed = (500:ℚ) from rfl,
    List.length_cons, List.length_nil, List.drop, hchange, jsLtC,
    marginCallPriceOf]
  norm_num

/-- C8 (amended). The divisions behind ROI and the margin-call price are
guarded (`ownCash > 0`, `shares > 0`, defaulting to 0), but the
sudden-loss day-over-day quotient is not: it is finite iff yesterday's ROI
is nonzero. When yesterday's ROI is 0 it is `-Infinity` (today negative;
still compared, triggering the rule), `+Infinity` (today positive), or
`NaN` (today 0; every comparison is false, so no alert fires). -/
theorem C8_amendedGuards (now : Int) (e : TrackingEntry) (q : ℚ)
    (y t : DailyUpdate) :
    (e.ownCash ≤ 0 → (calculateDailyUpdate now e q).currentROI = 0) ∧
    (0 < e.ownCash → (calculateDailyUpdate now e q).currentROI =
      (calculateDailyUpdate now e q).currentProfit / e.ownCash * 100) ∧
    (e.shares ≤ 0 → marginCallPriceOf e.shares e.marginUsed = 0) ∧
    ((suddenLossChange y t).isFinite = true ↔ y.roi ≠ 0) ∧
    (y.roi = 0 → t.roi < 0 →
      suddenLossChange y t = JsNum.negInf ∧
      jsLtC (suddenLossChange y t) (-10) = true) ∧
    (y.roi = 0 → 0 < t.roi → suddenLossChange y t = JsNum.posInf) ∧
    (y.roi = 0 → t.roi = 0 →
      suddenLossChange y t = JsNum.nan ∧
      jsLtC (suddenLossChange y t) (-10) = false) := by
  have hre : (calculateDailyUpdate now e q).currentROI =
      if 0 < e.ownCash then (calculateDailyUpdate now e q).currentProfit / e.ownCash * 100
      else 0 := rfl
  refine ⟨fun h => by rw [hre, if_neg (not_lt.mpr h)],
    fun h => by rw [hre, if_pos h],
    fun h => by rw [marginCallPriceOf, if_neg (not_lt.mpr h)], ?_, ?_, ?_, ?_⟩
  · unfold suddenLossChange jsDivFin
    by_cases hy : y.roi = 0
    · simp only [hy, abs_zero, sub_zero, if_pos rfl]
      by_cases ht : t.roi = 0
      · simp [ht, jsMul100, JsNum.isFinite]
      · by_cases htp : 0 < t.roi <;> simp [ht, htp, jsMul100, JsNum.isFinite, hy]
    · simp [abs_eq_zero, hy, jsMul100, JsNum.isFinite]
  · intro hy ht
    have hslc : suddenLossChange y t = JsNum.negInf := by
      unfold suddenLossChange jsDivFin
      rw [hy, abs_zero, sub_zero, if_pos rfl, if_neg (ne_of_lt ht),
        if_neg (not_lt.mpr (le_of_lt ht))]
      rfl
    exact ⟨hslc, by rw [hslc]; rfl⟩
  · intro hy ht
    unfold suddenLossChange jsDivFin
    rw [hy, abs_zero, sub_zero, if_pos rfl, if_neg (ne_of_gt ht), if_pos ht]
    rfl
  · intro hy ht
    have hslc : suddenLossChange y t = JsNum.nan := by
      unfold suddenLossChange jsDivFin
      simp [hy, ht, jsMul100]
    exact ⟨hslc, by rw [hslc]; rfl⟩

/-- C8 amended-claim witness: concrete instances of each guard clause. -/
theorem C8_amendedGuards_witness :
    (calculateDailyUpdate 0 eSpec 100).currentROI =
      (calculateDailyUpdate 0 eSpec 100).currentProfit / eSpec.ownCash * 100 ∧
    marginCallPriceOf eSuddenLoss.shares eSuddenLoss.marginUsed = 0 ∧
    ((suddenLossChange duRoiZero duRoiNeg).isFinite = true ↔ duRoiZero.roi ≠ 0) ∧
    suddenLossChange duRoiZero duRoiNeg = JsNum.negInf ∧
    jsLtC (suddenLossChange duRoiZero duRoiNeg) (-10) = true := by
  obtain ⟨-, hpos, -, hfin, hneg, -, -⟩ :=
    C8_amendedGuards 0 eSpec 100 duRoiZero duRoiNeg
  obtain ⟨-, -, hmcp0, -, -, -, -⟩ :=
    C8_amendedGuards 0 eSuddenLoss 100 duRoiZero duRoiNeg
  obtain ⟨h1, h2⟩ := hneg (by norm_num [duRoiZero]) (by norm_num [duRoiNeg])
  exact ⟨hpos (by norm_num [eSpec]), hmcp0 (by norm_num [eSuddenLoss, eSpec]),
    hfin, h1, h2⟩

/-! ### C9: equivalence of the two margin-call conditions -/

/-- C9. For positive price, shares and margin, the Alert Rule Engine's
margin-equity condition (equity percentage at most 25) holds exactly when
the tracking core's condition (price at most `(marginUsed*4/3)/shares`)
holds. -/
theorem C9_marginCondEquiv (p s m : ℚ) (hp : 0 < p) (hs : 0 < s) (hm : 0 < m) :
    engineMarginPercent p s m ≤ 25 ↔ p ≤ marginCallPriceOf s m := by
  have hps : 0 < p * s := mul_pos hp hs
  rw [marginCallPriceOf, if_pos hs, engineMarginPercent]
  rw [div_mul_eq_mul_div, div_le_iff₀ hps, le_div_iff₀ hs]
  constructor <;> intro h <;> linarith

/-- C9 witness: at price $60, 10 shares and $500 margin the engine's
equity percentage is 100/6 ≤ 25, hence the tracking condition
60 ≤ (500·4/3)/10 follows from the equivalence. -/
theorem C9_marginCondEquiv_witness : (60 : ℚ) ≤ marginCallPriceOf 10 500 :=
  (C9_marginCondEquiv 60 10 500 (by norm_num) (by norm_num) (by norm_num)).mp
    (by norm_num [engineMarginPercent])

/-! ### Evaluator lemmas: guard filtering, symbol scoping, first match -/

/-- Skipping ineligible positions equals evaluating the filtered list
(percentage gain). -/
theorem filterGuard_pg (alert : AlertConfiguration) (ps : List TrackingEntry) :
    evaluatePercentageGain alert ps =
      evaluatePercentageGain alert (ps.filter eligibleForPriceAlert) := by
  induction ps with
  | nil => rfl
  | cons p rest ih =>
    cases hc : p.currentPrice with
    | none => simp [evaluatePercentageGain, List.filter_cons, eligibleForPriceAlert, hc, ih]
    | some c =>
      by_cases h0 : c = 0
      · simp [evaluatePercentageGain, List.filter_cons, eligibleForPriceAlert, hc, h0, ih]
      · by_cases hs : p.status = Status.active
        · simp [evaluatePercentageGain, List.filter_cons, eligibleForPriceAlert, hc, h0, hs, ih]
        · simp [evaluatePercentageGain, List.filter_cons, eligibleForPriceAlert, hc, h0, hs, ih]

/-- Guard-filter equation for the dollar-profit evaluator. -/
theorem filterGuard_dp (alert : AlertConfiguration) (ps : List TrackingEntry) :
    evaluateDollarProfit alert ps =
      evaluateDollarProfit alert (ps.filter eligibleForPriceAlert) := by
  induction ps with
  | nil => rfl
  | cons p rest ih =>
    cases hc : p.currentPrice with
    | none => simp [evaluateDollarProfit, List.filter_cons, eligibleForPriceAlert, hc, ih]
    | some c =>
      by_cases h0 : c = 0
      · simp [evaluateDollarProfit, List.filter_cons, eligibleForPriceAlert, hc, h0, ih]
      · by_cases hs : p.status = Status.active
        · simp [evaluateDollarProfit, List.filter_cons, eligibleForPriceAlert, hc, h0, hs, ih]
        · simp [evaluateDollarProfit, List.filter_cons, eligibleForPriceAlert, hc, h0, hs, ih]

/-- Guard-filter equation for the price-target evaluator. -/
theorem filterGuard_pt (alert : AlertConfiguration) (ps : List TrackingEntry) :
    evaluatePriceTarget alert ps =
      evaluatePriceTarget alert (ps.filter eligibleForPriceAlert) := by
  induction ps with
  | nil => rfl
  | cons p rest ih =>
    cases hc : p.currentPrice with
    | none => simp [evaluatePriceTarget, List.filter_cons, eligibleForPriceAlert, hc, ih]
    | some c =>
      by_cases h0 : c = 0
      · simp [evaluatePriceTarget, List.filter_cons, eligibleForPriceAlert, hc, h0, ih]
      · by_cases hs : p.status = Status.active
        · simp [evaluatePriceTarget, List.filter_cons, eligibleForPriceAlert, hc, h0, hs, ih]
        · simp [evaluatePriceTarget, List.filter_cons, eligibleForPriceAlert, hc, h0, hs, ih]

/-- Guard-filter equation for the resistance-breach evaluator. -/
theorem filterGuard_rb (alert : AlertConfiguration) (ps : List TrackingEntry) :
    evaluateResistanceBreach alert ps =
      evaluateResistanceBreach alert (ps.filter eligibleForPriceAlert) := by
  induction ps with
  | nil => rfl
  | cons p rest ih =>
    cases hc : p.currentPrice with
    | none => simp [evaluateResistanceBreach, List.filter_cons, eligibleForPriceAlert, hc, ih]
    | some c =>
      by_cases h0 : c = 0
      · simp [evaluateResistanceBreach, List.filter_cons, eligibleForPriceAlert, hc, h0, ih]
      · by_cases hs : p.status = Status.active
        · simp [evaluateResistanceBreach, List.filter_cons, eligibleForPriceAlert,
            hc, h0, hs, ih]
        · simp [evaluateResistanceBreach, List.filter_cons, eligibleForPriceAlert,
            hc, h0, hs, ih]

/-- Guard-filter equation for the percentage-loss evaluator. -/
theorem filterGuard_pl (alert : AlertConfiguration) (ps : List TrackingEntry) :
    evaluatePercentageLoss alert ps =
      evaluatePercentageLoss alert (ps.filter eligibleForPriceAlert) := by
  induction ps with
  | nil => rfl
  | cons p rest ih =>
    cases hc : p.currentPrice with
    | none => simp [evaluatePercentageLoss, List.filter_cons, eligibleForPriceAlert, hc, ih]
    | some c =>
      by_cases h0 : c = 0
      · simp [evaluatePercentageLoss, List.filter_cons, eligibleForPriceAlert, hc, h0, ih]
      · by_cases hs : p.status = Status.active
        · simp [evaluatePercentageLoss, List.filter_cons, eligibleForPriceAlert, hc, h0, hs, ih]
        · simp [evaluatePercentageLoss, List.filter_cons, eligibleForPriceAlert, hc, h0, hs, ih]

/-- Guard-filter equation for the dollar-loss evaluator. -/
theorem filterGuard_dl (alert : AlertConfiguration) (ps : List TrackingEntry) :
    evaluateDollarLoss alert ps =
      evaluateDollarLoss alert (ps.filter eligibleForPriceAlert) := by
  induction ps with
  | nil => rfl
  | cons p rest ih =>
    cases hc : p.currentPrice with
    | none => simp [evaluateDollarLoss, List.filter_cons, eligibleForPriceAlert, hc, ih]
    | some c =>
      by_cases h0 : c = 0
      · simp [evaluateDollarLoss, List.filter_cons, eligibleForPriceAlert, hc, h0, ih]
      · by_cases hs : p.status = Status.active
        · simp [evaluateDollarLoss, List.filter_cons, eligibleForPriceAlert, hc, h0, hs, ih]
        · simp [evaluateDollarLoss, List.filter_cons, eligibleForPriceAlert, hc, h0, hs, ih]

/-- Guard-filter equation for the support-break evaluator. -/
theorem filterGuard_sb (alert : AlertConfiguration) (ps : List TrackingEntry) :
    evaluateSupportBreak alert ps =
      evaluateSupportBreak alert (ps.filter eligibleForPriceAlert) := by
  induction ps with
  | nil => rfl
  | cons p rest ih =>
    cases hc : p.currentPrice with
    | none => simp [evaluateSupportBreak, List.filter_cons, eligibleForPriceAlert, hc, ih]
    | some c =>
      by_cases h0 : c = 0
      · simp [evaluateSupportBreak, List.filter_cons, eligibleForPriceAlert, hc, h0, ih]
      · by_cases hs : p.status = Status.active
        · simp [evaluateSupportBreak, List.filter_cons, eligibleForPriceAlert, hc, h0, hs, ih]
        · simp [evaluateSupportBreak, List.filter_cons, eligibleForPriceAlert, hc, h0, hs, ih]

/-- A percentage-gain alert carries the symbol of one of the candidate
positions. -/
theorem symbol_pg (alert : AlertConfiguration) (ps : List TrackingEntry)
    (t : TriggeredAlert) (h : evaluatePercentageGain alert ps = some t) :
    ∃ p ∈ ps, t.symbol = some p.symbol := by
  induction ps with
  | nil => cases h
  | cons p rest ih =>
    cases hc : p.currentPrice with
    | none =>
      simp only [evaluatePercentageGain, hc] at h
      obtain ⟨p2, hp2, hsym⟩ := ih h
      exact ⟨p2, List.mem_cons_of_mem p hp2, hsym⟩
    | some c =>
      simp only [evaluatePercentageGain, hc] at h
      by_cases hg : c = 0 ∨ p.status ≠ Status.active
      · rw [if_pos hg] at h
        obtain ⟨p2, hp2, hsym⟩ := ih h
        exact ⟨p2, List.mem_cons_of_mem p hp2, hsym⟩
      · rw [if_neg hg] at h
        by_cases hcond : getConditionValue alert.conditions "percentage_gain" ≤
            (c - p.entryPrice) / p.entryPrice * 100
        · rw [if_pos hcond] at h
          refine ⟨p, List.mem_cons_self p rest, ?_⟩
          cases h
          rfl
        · rw [if_neg hcond] at h
          obtain ⟨p2, hp2, hsym⟩ := ih h
          exact ⟨p2, List.mem_cons_of_mem p hp2, hsym⟩

/-- Symbol provenance for the dollar-profit evaluator. -/
theorem symbol_dp (alert : AlertConfiguration) (ps : List TrackingEntry)
    (t : TriggeredAlert) (h : evaluateDollarProfit alert ps = some t) :
    ∃ p ∈ ps, t.symbol = some p.symbol := by
  induction ps with
  | nil => cases h
  | cons p rest ih =>
    cases hc : p.currentPrice with
    | none =>
      simp only [evaluateDollarProfit, hc] at h
      obtain ⟨p2, hp2, hsym⟩ := ih h
      exact ⟨p2, List.mem_cons_of_mem p hp2, hsym⟩
    | some c =>
      simp only [evaluateDollarProfit, hc] at h
      by_cases hg : c = 0 ∨ p.status ≠ Status.active
      · rw [if_pos hg] at h
        obtain ⟨p2, hp2, hsym⟩ := ih h
        exact ⟨p2, List.mem_cons_of_mem p hp2, hsym⟩
      · rw [if_neg hg] at h
        by_cases hcond : getConditionValue alert.conditions "dollar_profit" ≤
            (c - p.entryPrice) * p.shares
        · rw [if_pos hcond] at h
          refine ⟨p, List.mem_cons_self p rest, ?_⟩
          cases h
          rfl
        · rw [if_neg hcond] at h
          obtain ⟨p2, hp2, hsym⟩ := ih h
          exact ⟨p2, List.mem_cons_of_mem p hp2, hsym⟩

/-- Symbol provenance for the price-target evaluator. -/
theorem symbol_pt (alert : AlertConfiguration) (ps : List TrackingEntry)
    (t : TriggeredAlert) (h : evaluatePriceTarget alert ps = some t) :
    ∃ p ∈ ps, t.symbol = some p.symbol := by
  induction ps with
  | nil => cases h
  | cons p rest ih =>
    cases hc : p.currentPrice with
    | none =>
      simp only [evaluatePriceTarget, hc] at h
      obtain ⟨p2, hp2, hsym⟩ := ih h
      exact ⟨p2, List.mem_cons_of_mem p hp2, hsym⟩
    | some c =>
      simp only [evaluatePriceTarget, hc] at h
      by_cases hg : c = 0 ∨ p.status ≠ Status.active
      · rw [if_pos hg] at h
        obtain ⟨p2, hp2, hsym⟩ := ih h
        exact ⟨p2, List.mem_cons_of_mem p hp2, hsym⟩
      · rw [if_neg hg] at h
        by_cases hcond : getConditionValue alert.conditions "price_target" ≤ c
        · rw [if_pos hcond] at h
          refine ⟨p, List.mem_cons_self p rest, ?_⟩
          cases h
          rfl
        · rw [if_neg hcond] at h
          obtain ⟨p2, hp2, hsym⟩ := ih h
          exact ⟨p2, List.mem_cons_of_mem p hp2, hsym⟩

/-- Symbol provenance for the resistance-breach evaluator. -/
theorem symbol_rb (alert : AlertConfiguration) (ps : List TrackingEntry)
    (t : TriggeredAlert) (h : evaluateResistanceBreach alert ps = some t) :
    ∃ p ∈ ps, t.symbol = some p.symbol := by
  induction ps with
  | nil => cases h
  | cons p rest ih =>
    cases hc : p.currentPrice with
    | none =>
      simp only [evaluateResistanceBreach, hc] at h
      obtain ⟨p2, hp2, hsym⟩ := ih h
      exact ⟨p2, List.mem_cons_of_mem p hp2, hsym⟩
    | some c =>
      simp only [evaluateResistanceBreach, hc] at h
      by_cases hg : c = 0 ∨ p.status ≠ Status.active
      · rw [if_pos hg] at h
        obtain ⟨p2, hp2, hsym⟩ := ih h
        exact ⟨p2, List.mem_cons_of_mem p hp2, hsym⟩
      · rw [if_neg hg] at h
        by_cases hcond : getConditionValue alert.conditions "resistance_level" ≤ c
        · rw [if_pos hcond] at h
          refine ⟨p, List.mem_cons_self p rest, ?_⟩
          cases h
          rfl
        · rw [if_neg hcond] at h
          obtain ⟨p2, hp2, hsym⟩ := ih h
          exact ⟨p2, List.mem_cons_of_mem p hp2, hsym⟩

/-- Symbol provenance for the percentage-loss evaluator. -/
theorem symbol_pl (alert : AlertConfiguration) (ps : List TrackingEntry)
    (t : TriggeredAlert) (h : evaluatePercentageLoss alert ps = some t) :
    ∃ p ∈ ps, t.symbol = some p.symbol := by
  induction ps with
  | nil => cases h
  | cons p rest ih =>
    cases hc : p.currentPrice with
    | none =>
      simp only [evaluatePercentageLoss, hc] at h
      obtain ⟨p2, hp2, hsym⟩ := ih h
      exact ⟨p2, List.mem_cons_of_mem p hp2, hsym⟩
    | some c =>
      simp only [evaluatePercentageLoss, hc] at h
      by_cases hg : c = 0 ∨ p.status ≠ Status.active
      · rw [if_pos hg] at h
        obtain ⟨p2, hp2, hsym⟩ := ih h
        exact ⟨p2, List.mem_cons_of_mem p hp2, hsym⟩
      · rw [if_neg hg] at h
        by_cases hcond : |getConditionValue alert.conditions "percentage_loss"| ≤
            (p.entryPrice - c) / p.entryPrice * 100
        · rw [if_pos hcond] at h
          refine ⟨p, List.mem_cons_self p rest, ?_⟩
          cases h
          rfl
        · rw [if_neg hcond] at h
          obtain ⟨p2, hp2, hsym⟩ := ih h
          exact ⟨p2, List.mem_cons_of_mem p hp2, hsym⟩

/-- Symbol provenance for the dollar-loss evaluator. -/
theorem symbol_dl (alert : AlertConfiguration) (ps : List TrackingEntry)
    (t : TriggeredAlert) (h : evaluateDollarLoss alert ps = some t) :
    ∃ p ∈ ps, t.symbol = some p.symbol := by
  induction ps with
  | nil => cases h
  | cons p rest ih =>
    cases hc : p.currentPrice with
    | none =>
      simp only [evaluateDollarLoss, hc] at h
      obtain ⟨p2, hp2, hsym⟩ := ih h
      exact ⟨p2, List.mem_cons_of_mem p hp2, hsym⟩
    | some c =>
      simp only [evaluateDollarLoss, hc] at h
      by_cases hg : c = 0 ∨ p.status ≠ Status.active
      · rw [if_pos hg] at h
        obtain ⟨p2, hp2, hsym⟩ := ih h
        exact ⟨p2, List.mem_cons_of_mem p hp2, hsym⟩
      · rw [if_neg hg] at h
        by_cases hcond : |getConditionValue alert.conditions "dollar_loss"| ≤
            (p.entryPrice - c) * p.shares
        · rw [if_pos hcond] at h
          refine ⟨p, List.mem_cons_self p rest, ?_⟩
          cases h
          rfl
        · rw [if_neg hcond] at h
          obtain ⟨p2, hp2, hsym⟩ := ih h
          exact ⟨p2, List.mem_cons_of_mem p hp2, hsym⟩

/-- Symbol provenance for the support-break evaluator. -/
theorem symbol_sb (alert : AlertConfiguration) (ps : List TrackingEntry)
    (t : TriggeredAlert) (h : evaluateSupportBreak alert ps = some t) :
    ∃ p ∈ ps, t.symbol = some p.symbol := by
  induction ps with
  | nil => cases h
  | cons p rest ih =>
    cases hc : p.currentPrice with
    | none =>
      simp only [evaluateSupportBreak, hc] at h
      obtain ⟨p2, hp2, hsym⟩ := ih h
      exact ⟨p2, List.mem_cons_of_mem p hp2, hsym⟩
    | some c =>
      simp only [evaluateSupportBreak, hc] at h
      by_cases hg : c = 0 ∨ p.status ≠ Status.active
      · rw [if_pos hg] at h
        obtain ⟨p2, hp2, hsym⟩ := ih h
        exact ⟨p2, List.mem_cons_of_mem p hp2, hsym⟩
      · rw [if_neg hg] at h
        by_cases hcond : c ≤ getConditionValue alert.conditions "support_level"
        · rw [if_pos hcond] at h
          refine ⟨p, List.mem_cons_self p rest, ?_⟩
          cases h
          rfl
        · rw [if_neg hcond] at h
          obtain ⟨p2, hp2, hsym⟩ := ih h
          exact ⟨p2, List.mem_cons_of_mem p hp2, hsym⟩

/-- Symbol provenance for the margin-call-risk evaluator. -/
theorem symbol_mc (alert : AlertConfiguration) (ps : List TrackingEntry)
    (t : TriggeredAlert) (h : evaluateMarginCallRisk alert ps = some t) :
    ∃ p ∈ ps, t.symbol = some p.symbol := by
  induction ps with
  | nil => cases h
  | cons p rest ih =>
    cases hc : p.currentPrice with
    | none =>
      simp only [evaluateMarginCallRisk, hc] at h
      obtain ⟨p2, hp2, hsym⟩ := ih h
      exact ⟨p2, List.mem_cons_of_mem p hp2, hsym⟩
    | some c =>
      simp only [evaluateMarginCallRisk, hc] at h
      by_cases hg : c = 0 ∨ p.marginUsed = 0
      · rw [if_pos hg] at h
        obtain ⟨p2, hp2, hsym⟩ := ih h
        exact ⟨p2, List.mem_cons_of_mem p hp2, hsym⟩
      · rw [if_neg hg] at h
        by_cases hcond : engineMarginPercent c p.shares p.marginUsed ≤
            (if getConditionValue alert.conditions "margin_risk" = 0 then 25
             else getConditionValue alert.conditions "margin_risk")
        · rw [if_pos hcond] at h
          refine ⟨p, List.mem_cons_self p rest, ?_⟩
          cases h
          rfl
        · rw [if_neg hcond] at h
          obtain ⟨p2, hp2, hsym⟩ := ih h
          exact ⟨p2, List.mem_cons_of_mem p hp2, hsym⟩

/-- The percentage-gain evaluator returns exactly the first triggering
position of the list, in list order. -/
theorem find_pg (alert : AlertConfiguration) (ps : List TrackingEntry) :
    evaluatePercentageGain alert ps =
      (ps.find? (pgTriggers alert)).map (pgAlertOf alert) := by
  induction ps with
  | nil => rfl
  | cons p rest ih =>
    cases hc : p.currentPrice with
    | none =>
      have htr : pgTriggers alert p = false := by simp [pgTriggers, hc]
      simp [evaluatePercentageGain, hc, List.find?_cons, htr, ih]
    | some c =>
      by_cases hg : c = 0 ∨ p.status ≠ Status.active
      · have htr : pgTriggers alert p = false := by
          simp only [pgTriggers, hc, decide_eq_false_iff_not]
          rcases hg with h | h <;> simp [h]
        simp [evaluatePercentageGain, hc, hg, List.find?_cons, htr, ih]
      · push_neg at hg
        by_cases hcond : getConditionValue alert.conditions "percentage_gain" ≤
            (c - p.entryPrice) / p.entryPrice * 100
        · have htr : pgTriggers alert p = true := by
            simp [pgTriggers, hc, hg.1, hg.2, hcond]
          simp only [evaluatePercentageGain, hc]
          rw [if_neg (by push_neg; exact hg), if_pos hcond, List.find?_cons, htr]
          simp [pgAlertOf, hc]
        · have htr : pgTriggers alert p = false := by
            simp [pgTriggers, hc, hg.1, hg.2, hcond]
          simp only [evaluatePercentageGain, hc]
          rw [if_neg (by push_neg; exact hg), if_neg hcond, List.find?_cons, htr]
          simpa using ih

/-- Concrete evaluation: the 5% gain rule fires on the +6% position and
produces `gainAlert6`. -/
theorem evalPG_concrete :
    evaluatePercentageGain gainCfg5 [posGain6] = some gainAlert6 := by
  unfold evaluatePercentageGain
  norm_num only [show posGain6.currentPrice = some (106:ℚ) from rfl,
    show posGain6.status = Status.active from rfl,
    show posGain6.entryPrice = (100:ℚ) from rfl,
    show posGain6.symbol = "GAIN" from rfl,
    getConditionValue, gainCfg5, List.find?, createTriggeredAlert, gainAlert6]
  norm_num [createTriggeredAlert, gainAlert6]

/-- Concrete evaluation through the dispatcher. -/
theorem evalAlert_concrete :
    evaluateAlert gainCfg5 [posGain6] = some gainAlert6 := by
  have hdef : evaluateAlert gainCfg5 [posGain6] =
      evaluatePercentageGain gainCfg5 [posGain6] := rfl
  rw [hdef, evalPG_concrete]

/-- One engine pass over the single enabled configuration yields exactly
the one alert. -/
theorem evalAlertsNew_concrete :
    evaluateAlertsNew [gainCfg5] [posGain6] = [gainAlert6] := by
  have h0 : evaluateAlertsNew [gainCfg5] [posGain6] =
      List.filterMap (fun a => evaluateAlert a [posGain6]) [gainCfg5] := rfl
  rw [h0]
  simp [List.filterMap_cons, evalAlert_concrete]

/-! ### C6: shape of one evaluation pass -/

/-- C6. One `evaluateAlerts` pass produces at most one alert per enabled
configuration (so at most as many alerts as enabled configurations),
disabled configurations contribute nothing, a symbol-scoped configuration
is evaluated exactly on the positions matching its scope and any alert it
produces carries that symbol, and the per-position evaluator reports the
first triggering position in list order (shown for the percentage-gain
evaluator via `List.find?`). -/
theorem C6_evaluationPassShape (alerts : List AlertConfiguration)
    (positions : List TrackingEntry) :
    (evaluateAlertsNew alerts positions).length ≤
      (alerts.filter fun a => a.enabled).length ∧
    (∀ (l1 : List AlertConfiguration) (a : AlertConfiguration)
        (l2 : List AlertConfiguration), a.enabled = false →
      evaluateAlertsNew (l1 ++ a :: l2) positions =
        evaluateAlertsNew (l1 ++ l2) positions) ∧
    (∀ (a : AlertConfiguration) (s : String), a.symbol = some s →
      evaluateAlert a positions =
        evaluateAlert a (positions.filter fun p => p.symbol = s)) ∧
    (∀ (a : AlertConfiguration) (s : String) (t : TriggeredAlert),
      a.symbol = some s → evaluateAlert a positions = some t →
      t.symbol = some s) ∧
    (∀ a : AlertConfiguration, evaluatePercentageGain a positions =
      (positions.find? (pgTriggers a)).map (pgAlertOf a)) := by
  refine ⟨List.length_filterMap_le _ _, ?_, ?_, ?_, fun a => find_pg a positions⟩
  · intro l1 a l2 ha
    unfold evaluateAlertsNew
    rw [List.filter_append, List.filter_append, List.filter_cons_of_neg (by simp [ha])]
  · intro a s ha
    unfold evaluateAlert
    rw [ha]
    cases a.atype <;> simp [List.filter_filter]
  · intro a s t ha heval
    unfold evaluateAlert at heval
    rw [ha] at heval
    have hsym : ∃ p ∈ positions.filter (fun p => p.symbol = s),
        t.symbol = some p.symbol := by
      cases hat : a.atype <;> rw [hat] at heval
      · exact symbol_pg a _ t heval
      · exact symbol_dp a _ t heval
      · exact symbol_pt a _ t heval
      · exact symbol_rb a _ t heval
      · exact symbol_pl a _ t heval
      · exact symbol_dl a _ t heval
      · exact symbol_sb a _ t heval
      · exact symbol_mc a _ t heval
    obtain ⟨p, hp, hts⟩ := hsym
    have := (List.mem_filter.mp hp).2
    rw [hts]
    simp only [decide_eq_true_eq] at this
    rw [this]

/-- C6 witness: the concrete one-configuration, one-position instances of
each clause. -/
theorem C6_evaluationPassShape_witness :
    (evaluateAlertsNew [gainCfg5] [posGain6]).length ≤
      (List.filter (fun a => a.enabled) [gainCfg5]).length ∧
    evaluateAlertsNew [{ gainCfg5 with enabled := false }] [posGain6] =
      evaluateAlertsNew [] [posGain6] ∧
    evaluateAlert { gainCfg5 with symbol := some "GAIN" } [posGain6] =
      evaluateAlert { gainCfg5 with symbol := some "GAIN" }
        (List.filter (fun p => p.symbol = "GAIN") [posGain6]) ∧
    (∀ t, evaluateAlert { gainCfg5 with symbol := some "GAIN" } [posGain6] = some t →
      t.symbol = some "GAIN") ∧
    evaluatePercentageGain gainCfg5 [posGain6] =
      (List.find? (pgTriggers gainCfg5) [posGain6]).map (pgAlertOf gainCfg5) := by
  obtain ⟨h1, h2, h3, h4, h5⟩ := C6_evaluationPassShape [gainCfg5] [posGain6]
  refine ⟨h1, ?_, ?_, ?_, h5 gainCfg5⟩
  · simpa using (C6_evaluationPassShape ([] : List AlertConfiguration) [posGain6]).2.1
      [] { gainCfg5 with enabled := false } [] rfl
  · exact h3 { gainCfg5 with symbol := some "GAIN" } "GAIN" rfl
  · intro t ht
    exact h4 { gainCfg5 with symbol := some "GAIN" } "GAIN" t rfl ht

/-! ### C7: repeated evaluation re-triggers without deduplication -/

/-- C7. Against the +6% position, the enabled 5% percentage-gain
configuration triggers exactly one alert (status triggered,
currentValue 6, targetValue 5), which is appended to the persisted
collection; an identical second pass appends a second copy, growing the
collection to two more than it started with. -/
theorem C7_noDeduplication (prior : List TriggeredAlert) :
    (evaluateAlerts ⟨[gainCfg5], prior⟩ [posGain6]).1 = [gainAlert6] ∧
    gainAlert6.status = AlertStatus.triggered ∧
    gainAlert6.currentValue = some 6 ∧
    gainAlert6.targetValue = some 5 ∧
    (evaluateAlerts ⟨[gainCfg5], prior⟩ [posGain6]).2.triggeredAlerts =
      prior ++ [gainAlert6] ∧
    ((evaluateAlerts ((evaluateAlerts ⟨[gainCfg5], prior⟩ [posGain6]).2)
        [posGain6]).2.triggeredAlerts = prior ++ [gainAlert6, gainAlert6]) ∧
    ((evaluateAlerts ((evaluateAlerts ⟨[gainCfg5], prior⟩ [posGain6]).2)
        [posGain6]).2.triggeredAlerts.length = prior.length + 2) := by
  have hfst : (evaluateAlerts ⟨[gainCfg5], prior⟩ [posGain6]).1 =
      evaluateAlertsNew [gainCfg5] [posGain6] := rfl
  have hsnd : (evaluateAlerts ⟨[gainCfg5], prior⟩ [posGain6]).2 =
      ⟨[gainCfg5], prior ++ evaluateAlertsNew [gainCfg5] [posGain6]⟩ := rfl
  refine ⟨by rw [hfst, evalAlertsNew_concrete], rfl, rfl, rfl, ?_, ?_, ?_⟩
  · rw [hsnd, evalAlertsNew_concrete]
  · rw [hsnd, evalAlertsNew_concrete]
    have : (evaluateAlerts ⟨[gainCfg5], prior ++ [gainAlert6]⟩ [posGain6]).2 =
        ⟨[gainCfg5], (prior ++ [gainAlert6]) ++ evaluateAlertsNew [gainCfg5] [posGain6]⟩ :=
      rfl
    rw [this, evalAlertsNew_concrete, List.append_assoc]
    rfl
  · rw [hsnd, evalAlertsNew_concrete]
    have : (evaluateAlerts ⟨[gainCfg5], prior ++ [gainAlert6]⟩ [posGain6]).2 =
        ⟨[gainCfg5], (prior ++ [gainAlert6]) ++ evaluateAlertsNew [gainCfg5] [posGain6]⟩ :=
      rfl
    rw [this, evalAlertsNew_concrete]
    simp [List.length_append]

/-- C7 witness: the instantiation at an empty prior collection. -/
theorem C7_noDeduplication_witness :
    (evaluateAlerts ⟨[gainCfg5], []⟩ [posGain6]).1 = [gainAlert6] ∧
    ((evaluateAlerts ((evaluateAlerts ⟨[gainCfg5], []⟩ [posGain6]).2)
        [posGain6]).2.triggeredAlerts.length = 2) := by
  obtain ⟨h1, -, -, -, -, -, h7⟩ := C7_noDeduplication []
  exact ⟨h1, by simpa using h7⟩

/-! ### C10: price evaluators skip non-active or priceless positions -/

/-- C10. Each per-position price evaluator (percentage gain and loss,
dollar profit and loss, price target, resistance breach, support break)
evaluates exactly as if positions that are not active or whose current
price is 0 or undefined had been removed from the list: such positions are
silently skipped even when the measured metric would satisfy the
threshold. -/
theorem C10_priceEvaluatorGuards (alert : AlertConfiguration)
    (positions : List TrackingEntry) :
    evaluatePercentageGain alert positions =
      evaluatePercentageGain alert (positions.filter eligibleForPriceAlert) ∧
    evaluatePercentageLoss alert positions =
      evaluatePercentageLoss alert (positions.filter eligibleForPriceAlert) ∧
    evaluateDollarProfit alert positions =
      evaluateDollarProfit alert (positions.filter eligibleForPriceAlert) ∧
    evaluateDollarLoss alert positions =
      evaluateDollarLoss alert (positions.filter eligibleForPriceAlert) ∧
    evaluatePriceTarget alert positions =
      evaluatePriceTarget alert (positions.filter eligibleForPriceAlert) ∧
    evaluateResistanceBreach alert positions =
      evaluateResistanceBreach alert (positions.filter eligibleForPriceAlert) ∧
    evaluateSupportBreak alert positions =
      evaluateSupportBreak alert (positions.filter eligibleForPriceAlert) :=
  ⟨filterGuard_pg alert positions, filterGuard_pl alert positions,
   filterGuard_dp alert positions, filterGuard_dl alert positions,
   filterGuard_pt alert positions, filterGuard_rb alert positions,
   filterGuard_sb alert positions⟩

/-- C10 witness: the percentage-gain clause at a concrete configuration
and position list. -/
theorem C10_priceEvaluatorGuards_witness :
    evaluatePercentageGain gainCfg5 [posGain6] =
      evaluatePercentageGain gainCfg5 (List.filter eligibleForPriceAlert [posGain6]) :=
  (C10_priceEvaluatorGuards gainCfg5 [posGain6]).1

end TradeRisk
